import Mathlib

/-!
Verification of the core game logic of the ARShooter repository.

The TypeScript source is shallowly embedded:
* `ScoreManager` (src/game/ScoreManager.ts) — combo scoring, over `ℚ`/`ℤ`/`ℕ`
  with the wall-clock timestamp passed explicitly (`performance.now()` becomes
  the `now` argument).
* `GameManager` (src/game/GameManager.ts) — round state machine.
* `GestureDetector` (pistol gesture classifier) — geometry over `ℝ`, the
  mutable `lastShotTime` field threaded explicitly.
* `DiscManager` (trophy target field, main.ts lines 755–1041) — state record
  with an explicit `Math.random()` stream; rendering calls (meshes,
  `screenToWorld`) are external and carry no game state, so they are dropped.
* `ShootingSystem.update` (TrophyBuilder.ts) — magnetic aim assist.

JavaScript numbers are modelled as exact rationals/reals; `Math.round(x)` is
`⌊x + 1/2⌋` (JS rounds half toward +∞).
-/

namespace ARShooter

/-! ## ScoreManager (src/game/ScoreManager.ts) -/

/-- Mutable fields of the `ScoreManager` class. -/
structure ScoreState where
  score : ℤ
  combo : ℕ
  maxCombo : ℕ
  lastHitTime : ℚ
  deriving DecidableEq, Repr

def comboTimeout : ℚ := 2000

def basePoints : ℚ := 100

/-- JavaScript `Math.round`: round half toward positive infinity. -/
def jsRound (q : ℚ) : ℤ := ⌊q + 1/2⌋

/-- `ScoreManager.getMultiplier` as a function of the current combo. -/
def getMultiplier (combo : ℕ) : ℚ :=
  if combo ≥ 20 then 5
  else if combo ≥ 10 then 3
  else if combo ≥ 5 then 2
  else if combo ≥ 3 then 3/2
  else 1

/-- Result record returned by `ScoreManager.hit`. -/
structure HitResult where
  points : ℤ
  combo : ℕ
  multiplier : ℚ
  deriving DecidableEq, Repr

/-- `ScoreManager.hit(tierMultiplier)`; `now` is `performance.now()`. -/
def ScoreState.hit (s : ScoreState) (tierMultiplier : ℚ) (now : ℚ) :
    HitResult × ScoreState :=
  let combo0 := if now - s.lastHitTime > comboTimeout ∧ s.combo > 0 then 0 else s.combo
  let combo1 := combo0 + 1
  let maxCombo1 := if combo1 > s.maxCombo then combo1 else s.maxCombo
  let multiplier := getMultiplier combo1
  let points := jsRound (basePoints * multiplier * tierMultiplier)
  (⟨points, combo1, multiplier⟩,
   ⟨s.score + points, combo1, maxCombo1, now⟩)

/-- `ScoreManager.miss()`. -/
def ScoreState.miss (s : ScoreState) : ScoreState :=
  { s with combo := 0 }

/-- `ScoreManager.reset()`. -/
def ScoreState.reset (_s : ScoreState) : ScoreState :=
  ⟨0, 0, 0, 0⟩

/-- The trophy tiers (TrophyBuilder.ts `TrophyTier`). -/
inductive TrophyTier where
  | bronze
  | silver
  | gold
  deriving DecidableEq, Repr

/-- `TIER_SCORE` table from main.ts: the tier multiplier the game passes to
`scoreManager.hit` on each hit. -/
def TIER_SCORE : TrophyTier → ℚ
  | .gold => 5
  | .silver => 2
  | .bronze => 1

/-- One scoring event of a round, as issued by `shoot` in main.ts:
either `scoreManager.hit(TIER_SCORE[tier])` at wall-clock `now`, or
`scoreManager.miss()`. -/
inductive ScoreOp where
  | hitOp (tier : TrophyTier) (now : ℚ)
  | missOp
  deriving DecidableEq, Repr

/-- Run a sequence of scoring events against a `ScoreManager` state. -/
def runScoreOps : List ScoreOp → ScoreState → ScoreState
  | [], s => s
  | .hitOp tier now :: ops, s => runScoreOps ops (s.hit (TIER_SCORE tier) now).2
  | .missOp :: ops, s => runScoreOps ops s.miss

/-! ## GestureDetector (pistol gesture classifier)

Geometry is over `ℝ`; the class field `lastShotTime` is threaded explicitly
and `performance.now()` becomes the `now` argument. -/

noncomputable section

structure HandLandmark where
  x : ℝ
  y : ℝ
  z : ℝ

structure ScreenPosition where
  x : ℝ
  y : ℝ

structure GestureState where
  isPistol : Bool
  aimPosition : Option ScreenPosition
  handBase : Option ScreenPosition
  triggered : Bool

def SHOOT_COOLDOWN : ℝ := 500

def THUMB_BENT_ANGLE : ℝ := 155

def dist3D (a b : HandLandmark) : ℝ :=
  Real.sqrt ((a.x - b.x) * (a.x - b.x) + (a.y - b.y) * (a.y - b.y) +
    (a.z - b.z) * (a.z - b.z))

/-- Angle (degrees) at joint `b`, formed by points `a`-`b`-`c`. -/
def angleAtJoint (a b c : HandLandmark) : ℝ :=
  let v1 : HandLandmark := ⟨a.x - b.x, a.y - b.y, a.z - b.z⟩
  let v2 : HandLandmark := ⟨c.x - b.x, c.y - b.y, c.z - b.z⟩
  let dot := v1.x * v2.x + v1.y * v2.y + v1.z * v2.z
  let mag1 := Real.sqrt (v1.x ^ 2 + v1.y ^ 2 + v1.z ^ 2)
  let mag2 := Real.sqrt (v2.x ^ 2 + v2.y ^ 2 + v2.z ^ 2)
  if mag1 < 0.0001 ∨ mag2 < 0.0001 then 180
  else Real.arccos (max (-1) (min 1 (dot / (mag1 * mag2)))) * (180 / Real.pi)

def lmDefault : HandLandmark := ⟨0, 0, 0⟩

/-- The thumb angle at the IP joint (landmarks 2, 3, 4). -/
def thumbAngleOf (lm : List HandLandmark) : ℝ :=
  angleAtJoint (lm.getD 2 lmDefault) (lm.getD 3 lmDefault) (lm.getD 4 lmDefault)

def noGesture : GestureState := ⟨false, none, none, false⟩

/-- `GestureDetector.detect`; returns the gesture result together with the
updated `lastShotTime` field. -/
def detect (landmarks : Option (List HandLandmark)) (screenWidth screenHeight : ℝ)
    (lastShotTime now : ℝ) : GestureState × ℝ :=
  match landmarks with
  | none => (noGesture, lastShotTime)
  | some lm =>
    if lm.length < 21 then (noGesture, lastShotTime)
    else
      let wrist := lm.getD 0 lmDefault
      let idxTipW := dist3D (lm.getD 8 lmDefault) wrist
      let idxPipW := dist3D (lm.getD 6 lmDefault) wrist
      let midTipW := dist3D (lm.getD 12 lmDefault) wrist
      let midPipW := dist3D (lm.getD 10 lmDefault) wrist
      let ringTipW := dist3D (lm.getD 16 lmDefault) wrist
      let ringPipW := dist3D (lm.getD 14 lmDefault) wrist
      let pinkyTipW := dist3D (lm.getD 20 lmDefault) wrist
      let pinkyPipW := dist3D (lm.getD 18 lmDefault) wrist
      let indexExtended := decide (idxTipW > idxPipW)
      let curledCount : ℕ :=
        (if midTipW < midPipW * 1.15 then 1 else 0) +
        (if ringTipW < ringPipW * 1.15 then 1 else 0) +
        (if pinkyTipW < pinkyPipW * 1.15 then 1 else 0)
      let isPistol := indexExtended && decide (curledCount ≥ 1)
      let aimPosition : ScreenPosition :=
        ⟨(1 - (lm.getD 8 lmDefault).x) * screenWidth,
         (lm.getD 8 lmDefault).y * screenHeight⟩
      let handBase : ScreenPosition :=
        ⟨(1 - (lm.getD 0 lmDefault).x) * screenWidth,
         (lm.getD 0 lmDefault).y * screenHeight⟩
      let thumbAngle := thumbAngleOf lm
      let triggered :=
        decide (thumbAngle < THUMB_BENT_ANGLE ∧ now - lastShotTime > SHOOT_COOLDOWN)
      let newLast := if triggered then now else lastShotTime
      (⟨isPistol, some aimPosition, some handBase, triggered⟩, newLast)

/-! ## DiscManager (trophy target field, main.ts)

The `Math.random()` calls become reads of an explicit stream `rng` at a
running index; mesh construction, rotation and `screenToWorld` are pure
rendering (external collaborator) and carry no game state. `TIER_SCALE` only
feeds the mesh scale, so it does not appear. -/

def TIER_WEIGHTS : List (TrophyTier × ℝ) :=
  [(.bronze, 0.55), (.silver, 0.85), (.gold, 1.0)]

def TIER_SPEED_MULT : TrophyTier → ℝ
  | .bronze => 1
  | .silver => 1.2
  | .gold => 1.5

def TIER_HIT_RADIUS : TrophyTier → ℝ
  | .bronze => 90
  | .silver => 80
  | .gold => 65

def TARGET_COUNT : ℕ := 4

def BASE_SPEED_MIN : ℝ := 60

def BASE_SPEED_MAX : ℝ := 120

def SPEED_RAMP_INTERVAL : ℝ := 30

def SPEED_RAMP_AMOUNT : ℝ := 15

def SPEED_RAMP_MAX : ℝ := 80

structure Trophy where
  id : ℕ
  vx : ℝ
  vy : ℝ
  alive : Bool
  screenX : ℝ
  screenY : ℝ
  radius : ℝ
  tier : TrophyTier

structure Fragment where
  px : ℝ
  py : ℝ
  pz : ℝ
  vx : ℝ
  vy : ℝ
  vz : ℝ
  life : ℝ

structure DiscState where
  trophies : List Trophy
  nextId : ℕ
  fragments : List Fragment
  elapsedTime : ℝ
  rng : ℕ → ℝ
  rngIdx : ℕ

def getSpeedBonus (s : DiscState) : ℝ :=
  min ((⌊s.elapsedTime / SPEED_RAMP_INTERVAL⌋ : ℝ) * SPEED_RAMP_AMOUNT) SPEED_RAMP_MAX

/-- The loop body of `pickTier` over the cumulative weight table. -/
def pickTierFrom : List (TrophyTier × ℝ) → ℝ → TrophyTier
  | [], _ => .bronze
  | (t, threshold) :: rest, r => if r < threshold then t else pickTierFrom rest r

/-- `DiscManager.spawnTrophy`, consuming six `Math.random()` draws in source
order (tier, edge, edge coordinate, target x jitter, target y jitter, speed). -/
def spawnTrophy (width height : ℝ) (s : DiscState) : DiscState :=
  let tier := pickTierFrom TIER_WEIGHTS (s.rng s.rngIdx)
  let edge : ℤ := ⌊s.rng (s.rngIdx + 1) * 4⌋
  let margin : ℝ := 60
  let r2 := s.rng (s.rngIdx + 2)
  let startX : ℝ :=
    if edge = 0 then r2 * width
    else if edge = 1 then width + margin
    else if edge = 2 then r2 * width
    else -margin
  let startY : ℝ :=
    if edge = 0 then -margin
    else if edge = 1 then r2 * height
    else if edge = 2 then height + margin
    else r2 * height
  let targetX := width / 2 + (s.rng (s.rngIdx + 3) - 0.5) * width * 0.4
  let targetY := height / 2 + (s.rng (s.rngIdx + 4) - 0.5) * height * 0.4
  let dx := targetX - startX
  let dy := targetY - startY
  let dist := Real.sqrt (dx * dx + dy * dy)
  let bonus := getSpeedBonus s
  let baseSpeed := BASE_SPEED_MIN + bonus + s.rng (s.rngIdx + 5) * (BASE_SPEED_MAX - BASE_SPEED_MIN)
  let speed := baseSpeed * TIER_SPEED_MULT tier
  { s with
    trophies := s.trophies ++
      [{ id := s.nextId, vx := dx / dist * speed, vy := dy / dist * speed,
         alive := true, screenX := startX, screenY := startY,
         radius := TIER_HIT_RADIUS tier, tier := tier }],
    nextId := s.nextId + 1,
    rngIdx := s.rngIdx + 6 }

def spawnN (width height : ℝ) : ℕ → DiscState → DiscState
  | 0, s => s
  | n + 1, s => spawnN width height n (spawnTrophy width height s)

/-- `DiscManager.start`: spawn `TARGET_COUNT` trophies (nothing is cleared). -/
def DiscState.start (width height : ℝ) (s : DiscState) : DiscState :=
  spawnN width height TARGET_COUNT s

/-- Per-trophy body of the `update` loop: dead trophies are skipped; live ones
move by `velocity·dt` and are despawned once outside the viewport margin. -/
def moveTrophy (dt width height : ℝ) (t : Trophy) : Trophy :=
  if !t.alive then t
  else
    let t' := { t with screenX := t.screenX + t.vx * dt, screenY := t.screenY + t.vy * dt }
    let margin : ℝ := 100
    if t'.screenX < -margin ∨ t'.screenX > width + margin ∨
       t'.screenY < -margin ∨ t'.screenY > height + margin
    then { t' with alive := false }
    else t'

def stepFragment (dt : ℝ) (f : Fragment) : Fragment :=
  { f with
    px := f.px + f.vx * dt,
    py := f.py + f.vy * dt,
    pz := f.pz + f.vz * dt,
    vy := f.vy - 400 * dt,
    life := f.life - dt }

/-- The `while (trophies.length < TARGET_COUNT) spawnTrophy()` loop, with fuel;
each iteration adds exactly one trophy, so `TARGET_COUNT` fuel always reaches
the population count. -/
def replenish (width height : ℝ) : ℕ → DiscState → DiscState
  | 0, s => s
  | n + 1, s =>
    if s.trophies.length < TARGET_COUNT
    then replenish width height n (spawnTrophy width height s)
    else s

/-- `DiscManager.update(dt)` with the viewport size from `scene.getSize()`. -/
def DiscState.update (dt width height : ℝ) (s : DiscState) : DiscState :=
  let s1 := { s with elapsedTime := s.elapsedTime + dt }
  let moved := s1.trophies.map (moveTrophy dt width height)
  let frags := (s1.fragments.map (stepFragment dt)).filter (fun f => !decide (f.life ≤ 0))
  let s2 := { s1 with trophies := moved.filter (·.alive), fragments := frags }
  replenish width height TARGET_COUNT s2

def distTo (qx qy : ℝ) (t : Trophy) : ℝ :=
  Real.sqrt ((qx - t.screenX) * (qx - t.screenX) + (qy - t.screenY) * (qy - t.screenY))

/-- The scan loop of `checkHit`: running closest trophy and its distance
(`closestDist` starts at `Infinity`, modelled by `⊤ : EReal`). -/
def closestScan (qx qy : ℝ) : List Trophy → Option Trophy × EReal → Option Trophy × EReal
  | [], acc => acc
  | t :: ts, (closest, closestDist) =>
    if t.alive = true ∧ distTo qx qy t < t.radius ∧ (distTo qx qy t : EReal) < closestDist
    then closestScan qx qy ts (some t, (distTo qx qy t : EReal))
    else closestScan qx qy ts (closest, closestDist)

def shatterFragCount : TrophyTier → ℕ
  | .gold => 12
  | .silver => 10
  | .bronze => 8

/-- One iteration of the fragment loop in `shatterTrophy`, consuming four
`Math.random()` draws (geometry size, angle jitter, speed, z velocity). -/
def spawnFragment (cx cy : ℝ) (count i : ℕ) (s : DiscState) : DiscState :=
  let r1 := s.rng (s.rngIdx + 1)
  let angle := 2 * Real.pi * i / count + r1 * 0.5
  let r2 := s.rng (s.rngIdx + 2)
  let spd := 200 + r2 * 300
  let r3 := s.rng (s.rngIdx + 3)
  { s with
    fragments := s.fragments ++
      [{ px := cx, py := cy, pz := 0, vx := Real.cos angle * spd,
         vy := Real.sin angle * spd + 100, vz := (r3 - 0.5) * 200, life := 0.8 }],
    rngIdx := s.rngIdx + 4 }

def spawnFragments (cx cy : ℝ) (count : ℕ) : ℕ → DiscState → DiscState
  | 0, s => s
  | n + 1, s => spawnFragments cx cy count n (spawnFragment cx cy count (count - (n + 1)) s)

/-- `DiscManager.shatterTrophy`: one-shot kill of the hit trophy plus fragment
spawning. -/
def shatterTrophy (t : Trophy) (s : DiscState) : DiscState :=
  let s1 :=
    { s with trophies := s.trophies.map (fun u => if u.id = t.id then { u with alive := false } else u) }
  spawnFragments t.screenX t.screenY (shatterFragCount t.tier) (shatterFragCount t.tier) s1

/-- `DiscManager.checkHit`: the returned position/tier are recorded before the
shatter transition. -/
def DiscState.checkHit (qx qy : ℝ) (s : DiscState) :
    Option (ℝ × ℝ × TrophyTier) × DiscState :=
  match closestScan qx qy s.trophies (none, ⊤) with
  | (some t, _) => (some (t.screenX, t.screenY, t.tier), shatterTrophy t s)
  | (none, _) => (none, s)

/-- `DiscManager.dispose`: clears the trophy and fragment arrays (the
`elapsedTime` accumulator and id counter are left as they are). -/
def DiscState.dispose (s : DiscState) : DiscState :=
  { s with trophies := [], fragments := [] }

/-- Number of currently alive trophies. -/
def aliveCount (s : DiscState) : ℕ := (s.trophies.filter (·.alive)).length

/-- The operations the game loop performs on the target field after `start`. -/
inductive DMOp where
  | upd (dt : ℝ)
  | hit (x y : ℝ)

def runDMOps (width height : ℝ) : List DMOp → DiscState → DiscState
  | [], s => s
  | .upd dt :: ops, s => runDMOps width height ops (s.update dt width height)
  | .hit x y :: ops, s => runDMOps width height ops (s.checkHit x y).2

/-! ## GameManager (round state machine) -/

inductive GameState where
  | IDLE
  | PLAYING
  | GAME_OVER
  deriving DecidableEq, Repr

def ROUND_DURATION : ℝ := 60

/-- State of the `GameManager` together with its owned collaborators; the
`onGameOver` callback is modelled by the count of times it has fired. -/
structure GMState where
  state : GameState
  timeRemaining : ℝ
  score : ScoreState
  disc : DiscState
  overFired : ℕ

/-- `GameManager.startGame` (viewport size forwarded to `DiscManager.start`). -/
def GMState.startGame (width height : ℝ) (g : GMState) : GMState :=
  if g.state = .PLAYING then g
  else
    { g with
      state := .PLAYING,
      timeRemaining := ROUND_DURATION,
      score := g.score.reset,
      disc := g.disc.start width height }

def GMState.endGame (g : GMState) : GMState :=
  if g.state ≠ .PLAYING then g
  else { g with state := .GAME_OVER, overFired := g.overFired + 1 }

def GMState.update (dt : ℝ) (g : GMState) : GMState :=
  if g.state ≠ .PLAYING then g
  else
    let t := g.timeRemaining - dt
    if t ≤ 0 then GMState.endGame { g with timeRemaining := 0 }
    else { g with timeRemaining := t }

def GMState.restart (g : GMState) : GMState := { g with state := .IDLE }

/-- The public calls on `GameManager`. -/
inductive GMOp where
  | startOp (width height : ℝ)
  | updateOp (dt : ℝ)
  | endOp
  | restartOp

def applyGMOp : GMOp → GMState → GMState
  | .startOp w h, g => g.startGame w h
  | .updateOp dt, g => g.update dt
  | .endOp, g => g.endGame
  | .restartOp, g => g.restart

/-! ## ShootingSystem.update (magnetic aim assist, TrophyBuilder.ts) -/

def AIM_ASSIST_RADIUS : ℝ := 150

def AIM_ASSIST_STRENGTH : ℝ := 0.45

/-- Loop accumulator of the assist scan: current aim point, lock flag, and the
running closest distance (starts at `Infinity`, modelled by `⊤ : EReal`). -/
structure AimAcc where
  aimX : ℝ
  aimY : ℝ
  isLocked : Bool
  closestDist : EReal

/-- Euclidean screen distance from the raw aim point to a disc position. -/
def aimDist (rawAim d : ScreenPosition) : ℝ :=
  Real.sqrt ((rawAim.x - d.x) * (rawAim.x - d.x) + (rawAim.y - d.y) * (rawAim.y - d.y))

/-- The disc scan loop of `ShootingSystem.update`. -/
def aimScan (rawAim : ScreenPosition) : List ScreenPosition → AimAcc → AimAcc
  | [], acc => acc
  | d :: ds, acc =>
    let dist := aimDist rawAim d
    if dist < AIM_ASSIST_RADIUS ∧ (dist : EReal) < acc.closestDist then
      let pull := AIM_ASSIST_STRENGTH * (1 - dist / AIM_ASSIST_RADIUS)
      aimScan rawAim ds
        ⟨rawAim.x + (d.x - rawAim.x) * pull, rawAim.y + (d.y - rawAim.y) * pull,
         decide (dist < AIM_ASSIST_RADIUS * 0.5), (dist : EReal)⟩
    else aimScan rawAim ds acc

/-- `ShootingSystem.update`: returns the final aim point (or `none` when either
input is null) and the `isLocked` field after the call (`prevLocked` is its
value before the call; the null path leaves it untouched). -/
def shootingUpdate (rawAim handBase : Option ScreenPosition)
    (discPositions : List ScreenPosition) (prevLocked : Bool) :
    Option ScreenPosition × Bool :=
  match rawAim, handBase with
  | some p, some _ =>
    let acc := aimScan p discPositions ⟨p.x, p.y, false, ⊤⟩
    (some ⟨acc.aimX, acc.aimY⟩, acc.isLocked)
  | _, _ => (none, prevLocked)

end

/-! ## Helper lemmas: ScoreManager -/

theorem hit_lastHitTime (s : ScoreState) (m t : ℚ) : (s.hit m t).2.lastHitTime = t := rfl

theorem hit_combo_within (s : ScoreState) (m t : ℚ) (h : t - s.lastHitTime ≤ comboTimeout) :
    (s.hit m t).1.combo = s.combo + 1 ∧ (s.hit m t).2.combo = s.combo + 1 ∧
    (s.hit m t).1.multiplier = getMultiplier (s.combo + 1) := by
  have hc : ¬(t - s.lastHitTime > comboTimeout ∧ s.combo > 0) := by
    rintro ⟨h1, _⟩
    exact absurd h1 (not_lt.mpr h)
  simp [ScoreState.hit, hc]

theorem hit_combo_of_zero (s : ScoreState) (m t : ℚ) (h : s.combo = 0) :
    (s.hit m t).1.combo = 1 ∧ (s.hit m t).2.combo = 1 ∧
    (s.hit m t).1.multiplier = getMultiplier 1 := by
  have hc : ¬(t - s.lastHitTime > comboTimeout ∧ s.combo > 0) := by
    rintro ⟨_, h2⟩
    omega
  simp [ScoreState.hit, hc, h]

theorem getMultiplier_one : getMultiplier 1 = 1 := by norm_num [getMultiplier]
theorem getMultiplier_two : getMultiplier 2 = 1 := by norm_num [getMultiplier]
theorem getMultiplier_three : getMultiplier 3 = 3/2 := by norm_num [getMultiplier]
theorem getMultiplier_four : getMultiplier 4 = 3/2 := by norm_num [getMultiplier]
theorem getMultiplier_five : getMultiplier 5 = 2 := by norm_num [getMultiplier]

/-- C6: starting from a reset `ScoreManager`, five hits each within the
2000 ms combo timeout produce combos 1,2,3,4,5 and multipliers 1,1,1.5,1.5,2;
a miss resets the combo to 0; a hit arriving more than 2000 ms after the
previous hit while the combo is positive resets the combo before
incrementing, yielding combo 1. -/
theorem C6_combo_multiplier_sequence :
    (∀ (m1 m2 m3 m4 m5 t1 t2 t3 t4 t5 : ℚ) (s : ScoreState),
      t2 - t1 ≤ comboTimeout → t3 - t2 ≤ comboTimeout →
      t4 - t3 ≤ comboTimeout → t5 - t4 ≤ comboTimeout →
      let h1 := s.reset.hit m1 t1
      let h2 := h1.2.hit m2 t2
      let h3 := h2.2.hit m3 t3
      let h4 := h3.2.hit m4 t4
      let h5 := h4.2.hit m5 t5
      (h1.1.combo, h2.1.combo, h3.1.combo, h4.1.combo, h5.1.combo) = (1, 2, 3, 4, 5) ∧
      (h1.1.multiplier, h2.1.multiplier, h3.1.multiplier, h4.1.multiplier,
        h5.1.multiplier) = (1, 1, 3/2, 3/2, 2)) ∧
    (∀ s : ScoreState, s.miss.combo = 0) ∧
    (∀ (m t : ℚ) (s : ScoreState), t - s.lastHitTime > comboTimeout → s.combo > 0 →
      (s.hit m t).1.combo = 1) := by
  refine ⟨?_, ?_, ?_⟩
  · intro m1 m2 m3 m4 m5 t1 t2 t3 t4 t5 s g2 g3 g4 g5
    have r0 : (ScoreState.reset s).combo = 0 := rfl
    obtain ⟨c1, c1', mu1⟩ := hit_combo_of_zero s.reset m1 t1 r0
    have l1 : (s.reset.hit m1 t1).2.lastHitTime = t1 := hit_lastHitTime _ _ _
    obtain ⟨c2, c2', mu2⟩ := hit_combo_within (s.reset.hit m1 t1).2 m2 t2 (by rw [l1]; exact g2)
    have l2 : ((s.reset.hit m1 t1).2.hit m2 t2).2.lastHitTime = t2 := hit_lastHitTime _ _ _
    obtain ⟨c3, c3', mu3⟩ :=
      hit_combo_within ((s.reset.hit m1 t1).2.hit m2 t2).2 m3 t3 (by rw [l2]; exact g3)
    have l3 : (((s.reset.hit m1 t1).2.hit m2 t2).2.hit m3 t3).2.lastHitTime = t3 :=
      hit_lastHitTime _ _ _
    obtain ⟨c4, c4', mu4⟩ :=
      hit_combo_within (((s.reset.hit m1 t1).2.hit m2 t2).2.hit m3 t3).2 m4 t4
        (by rw [l3]; exact g4)
    have l4 : ((((s.reset.hit m1 t1).2.hit m2 t2).2.hit m3 t3).2.hit m4 t4).2.lastHitTime = t4 :=
      hit_lastHitTime _ _ _
    obtain ⟨c5, c5', mu5⟩ :=
      hit_combo_within ((((s.reset.hit m1 t1).2.hit m2 t2).2.hit m3 t3).2.hit m4 t4).2 m5 t5
        (by rw [l4]; exact g5)
    rw [c1'] at c2 c2' mu2
    rw [c2'] at c3 c3' mu3
    rw [c3'] at c4 c4' mu4
    rw [c4'] at c5 mu5
    simp only []
    refine ⟨?_, ?_⟩
    · rw [c1, c2, c3, c4, c5]
    · rw [mu1, mu2, mu3, mu4, mu5]
      norm_num [getMultiplier_one, getMultiplier_two, getMultiplier_three,
        getMultiplier_four, getMultiplier_five]
  · intro s
    rfl
  · intro m t s h1 h2
    have hc : t - s.lastHitTime > comboTimeout ∧ s.combo > 0 := ⟨h1, h2⟩
    simp [ScoreState.hit, hc]

/-- Witness for C6 at concrete multipliers and timestamps. -/
theorem C6_combo_multiplier_sequence_witness :
    (let s0 : ScoreState := ⟨0, 0, 0, 0⟩
     let h1 := s0.reset.hit 1 100
     let h2 := h1.2.hit 1 200
     let h3 := h2.2.hit 1 300
     let h4 := h3.2.hit 1 400
     let h5 := h4.2.hit 1 500
     (h1.1.combo, h2.1.combo, h3.1.combo, h4.1.combo, h5.1.combo) = (1, 2, 3, 4, 5) ∧
     (h1.1.multiplier, h2.1.multiplier, h3.1.multiplier, h4.1.multiplier,
       h5.1.multiplier) = (1, 1, 3/2, 3/2, 2)) ∧
    (⟨350, 7, 7, 0⟩ : ScoreState).miss.combo = 0 ∧
    ((⟨350, 7, 7, 0⟩ : ScoreState).hit 1 2500).1.combo = 1 := by
  refine ⟨?_, C6_combo_multiplier_sequence.2.1 ⟨350, 7, 7, 0⟩,
    C6_combo_multiplier_sequence.2.2 1 2500 ⟨350, 7, 7, 0⟩ (by norm_num [comboTimeout])
      (by norm_num)⟩
  exact C6_combo_multiplier_sequence.1 1 1 1 1 1 100 200 300 400 500 ⟨0, 0, 0, 0⟩
    (by norm_num [comboTimeout]) (by norm_num [comboTimeout]) (by norm_num [comboTimeout])
    (by norm_num [comboTimeout])

theorem one_le_getMultiplier (c : ℕ) : 1 ≤ getMultiplier c := by
  unfold getMultiplier
  split
  · norm_num
  · split
    · norm_num
    · split
      · norm_num
      · split <;> norm_num

theorem one_le_TIER_SCORE (t : TrophyTier) : 1 ≤ TIER_SCORE t := by
  cases t <;> norm_num [TIER_SCORE]

theorem hit_score_le (s : ScoreState) (m t : ℚ) (hm : 0 ≤ m) :
    s.score ≤ (s.hit m t).2.score := by
  have h1 : (1 : ℚ) ≤ getMultiplier ((if t - s.lastHitTime > comboTimeout ∧ s.combo > 0
      then 0 else s.combo) + 1) := one_le_getMultiplier _
  have hq : (0 : ℚ) ≤ basePoints *
      getMultiplier ((if t - s.lastHitTime > comboTimeout ∧ s.combo > 0
        then 0 else s.combo) + 1) * m := by
    have : (0 : ℚ) ≤ basePoints * getMultiplier ((if t - s.lastHitTime > comboTimeout ∧
        s.combo > 0 then 0 else s.combo) + 1) := by
      have hb : (0 : ℚ) ≤ basePoints := by norm_num [basePoints]
      nlinarith
    exact mul_nonneg this hm
  have hpts : (0 : ℤ) ≤ jsRound (basePoints *
      getMultiplier ((if t - s.lastHitTime > comboTimeout ∧ s.combo > 0
        then 0 else s.combo) + 1) * m) := by
    unfold jsRound
    exact Int.floor_nonneg.mpr (by linarith)
  show s.score ≤ s.score + _
  omega

theorem runScoreOps_score_mono (ops : List ScoreOp) (s : ScoreState) :
    s.score ≤ (runScoreOps ops s).score := by
  induction ops generalizing s with
  | nil => exact le_refl _
  | cons op rest ih =>
    cases op with
    | hitOp tier now =>
      calc s.score ≤ (s.hit (TIER_SCORE tier) now).2.score :=
            hit_score_le s _ now (by linarith [one_le_TIER_SCORE tier])
        _ ≤ _ := ih _
    | missOp => exact ih _

/-- C7: for every sequence of `hit`/`miss` calls issued by the game (`shoot`
passes `TIER_SCORE[tier]` as the tier multiplier), `getScore()` is
monotonically non-decreasing; `reset()` returns the score to 0; and a single
`hit` never increases the combo by more than 1. -/
theorem C7_score_monotone :
    (∀ (ops : List ScoreOp) (s : ScoreState), s.score ≤ (runScoreOps ops s).score) ∧
    (∀ s : ScoreState, s.reset.score = 0) ∧
    (∀ (m t : ℚ) (s : ScoreState), (s.hit m t).2.combo ≤ s.combo + 1) := by
  refine ⟨runScoreOps_score_mono, fun _ => rfl, ?_⟩
  intro m t s
  show (if t - s.lastHitTime > comboTimeout ∧ s.combo > 0 then 0 else s.combo) + 1 ≤ s.combo + 1
  split
  · omega
  · omega

/-! ## GameManager claims -/

noncomputable section

/-- A freshly constructed target field (empty arrays, zero timers, a fixed
random stream). -/
def discEx : DiscState := ⟨[], 0, [], 0, fun _ => 0, 0⟩

def scoreEx : ScoreState := ⟨0, 0, 0, 0⟩

def gmPlaying : GMState := ⟨.PLAYING, 60, scoreEx, discEx, 0⟩

def gmIdle : GMState := ⟨.IDLE, 60, scoreEx, discEx, 0⟩

def gmOver : GMState := ⟨.GAME_OVER, 0, scoreEx, discEx, 0⟩

end

/-- C8: in the Playing state with 60 s remaining, one `update(dt=70)` yields
GameOver with the timer clamped to exactly 0; `update` is a no-op in Idle and
GameOver; and no single `GameManager` call moves Idle directly to GameOver. -/
theorem C8_round_timer :
    (∀ g : GMState, g.state = .PLAYING → g.timeRemaining = 60 →
      (g.update 70).state = .GAME_OVER ∧ (g.update 70).timeRemaining = 0) ∧
    (∀ (dt : ℝ) (g : GMState), g.state = .IDLE ∨ g.state = .GAME_OVER → g.update dt = g) ∧
    (∀ (op : GMOp) (g : GMState), g.state = .IDLE → (applyGMOp op g).state ≠ .GAME_OVER) := by
  refine ⟨?_, ?_, ?_⟩
  · intro g hstate htime
    have hle : g.timeRemaining - 70 ≤ 0 := by rw [htime]; norm_num
    simp [GMState.update, GMState.endGame, hstate, hle]
  · intro dt g hstate
    rcases hstate with h | h <;> simp [GMState.update, h]
  · intro op g hstate
    cases op <;>
      simp [applyGMOp, GMState.startGame, GMState.update, GMState.endGame,
        GMState.restart, hstate]

/-- Witness for C8 at a concrete Playing state and a concrete Idle state. -/
theorem C8_round_timer_witness :
    ((gmPlaying.update 70).state = .GAME_OVER ∧ (gmPlaying.update 70).timeRemaining = 0) ∧
    gmIdle.update 5 = gmIdle ∧
    (applyGMOp .endOp gmIdle).state ≠ .GAME_OVER :=
  ⟨C8_round_timer.1 gmPlaying rfl rfl,
   C8_round_timer.2.1 5 gmIdle (Or.inl rfl),
   C8_round_timer.2.2 .endOp gmIdle rfl⟩

/-- C10: `startGame()` called in GameOver moves directly to Playing in one
transition — resetting the score engine, restarting the target field and
setting the timer to 60 s — and the guard makes `startGame` a no-op exactly
when the state is already Playing. -/
theorem C10_startGame_transitions :
    (∀ (w h : ℝ) (g : GMState), g.state = .GAME_OVER →
      g.startGame w h =
        { g with
          state := .PLAYING,
          timeRemaining := ROUND_DURATION,
          score := g.score.reset,
          disc := g.disc.start w h }) ∧
    (∀ (w h : ℝ) (g : GMState), g.state = .PLAYING → g.startGame w h = g) ∧
    (∀ (w h : ℝ) (g : GMState), g.state ≠ .PLAYING → (g.startGame w h).state = .PLAYING) ∧
    (∀ (w h : ℝ) (g : GMState), g.state ≠ .PLAYING → g.startGame w h ≠ g) := by
  have hact : ∀ (w h : ℝ) (g : GMState), g.state ≠ .PLAYING →
      (g.startGame w h).state = .PLAYING := by
    intro w h g hstate
    simp [GMState.startGame, hstate]
  refine ⟨?_, ?_, hact, ?_⟩
  · intro w h g hstate
    have : g.state ≠ .PLAYING := by rw [hstate]; intro hcon; cases hcon
    simp [GMState.startGame, this]
  · intro w h g hstate
    simp [GMState.startGame, hstate]
  · intro w h g hstate heq
    exact hstate (by rw [← heq]; exact hact w h g hstate)

/-- Witness for C10 at a concrete GameOver state. -/
theorem C10_startGame_transitions_witness :
    gmOver.startGame 640 480 =
      { gmOver with
        state := .PLAYING,
        timeRemaining := ROUND_DURATION,
        score := gmOver.score.reset,
        disc := gmOver.disc.start 640 480 } ∧
    (gmOver.startGame 640 480).state = .PLAYING ∧
    gmOver.startGame 640 480 ≠ gmOver := by
  have hne : gmOver.state ≠ .PLAYING := by intro hcon; cases hcon
  exact ⟨C10_startGame_transitions.1 640 480 gmOver rfl,
    C10_startGame_transitions.2.2.1 640 480 gmOver hne,
    C10_startGame_transitions.2.2.2 640 480 gmOver hne⟩

/-! ## GestureDetector claims -/

/-- C2: whenever the landmark list is null or has fewer than 21 entries,
`detect` returns `isPistol=false, triggered=false`, both points null, and
leaves the last-shot timestamp unchanged (the function is total, so no
exception can be raised). -/
theorem C2_invalid_landmarks :
    ∀ (landmarks : Option (List HandLandmark)) (w h last now : ℝ),
      (landmarks = none ∨ ∃ lm, landmarks = some lm ∧ lm.length < 21) →
      (detect landmarks w h last now).1.isPistol = false ∧
      (detect landmarks w h last now).1.triggered = false ∧
      (detect landmarks w h last now).1.aimPosition = none ∧
      (detect landmarks w h last now).1.handBase = none ∧
      (detect landmarks w h last now).2 = last := by
  intro landmarks w h last now hbad
  rcases hbad with rfl | ⟨lm, rfl, hlen⟩
  · exact ⟨rfl, rfl, rfl, rfl, rfl⟩
  · simp [detect, hlen, noGesture]

/-- Witness for C2 at the null input and at a concrete 2-entry list. -/
theorem C2_invalid_landmarks_witness :
    ((detect none 640 480 3 100).1.isPistol = false ∧
     (detect none 640 480 3 100).1.triggered = false ∧
     (detect none 640 480 3 100).1.aimPosition = none ∧
     (detect none 640 480 3 100).1.handBase = none ∧
     (detect none 640 480 3 100).2 = 3) ∧
    ((detect (some [lmDefault, lmDefault]) 640 480 3 100).1.isPistol = false ∧
     (detect (some [lmDefault, lmDefault]) 640 480 3 100).1.triggered = false ∧
     (detect (some [lmDefault, lmDefault]) 640 480 3 100).1.aimPosition = none ∧
     (detect (some [lmDefault, lmDefault]) 640 480 3 100).1.handBase = none ∧
     (detect (some [lmDefault, lmDefault]) 640 480 3 100).2 = 3) :=
  ⟨C2_invalid_landmarks none 640 480 3 100 (Or.inl rfl),
   C2_invalid_landmarks (some [lmDefault, lmDefault]) 640 480 3 100
     (Or.inr ⟨[lmDefault, lmDefault], rfl, by simp⟩)⟩

theorem detect_triggered_eq (lm : List HandLandmark) (w h last now : ℝ)
    (h21 : ¬ lm.length < 21) :
    (detect (some lm) w h last now).1.triggered =
      decide (thumbAngleOf lm < THUMB_BENT_ANGLE ∧ now - last > SHOOT_COOLDOWN) := by
  simp only [detect]
  rw [if_neg h21]

theorem detect_newLast_eq (lm : List HandLandmark) (w h last now : ℝ)
    (h21 : ¬ lm.length < 21) :
    (detect (some lm) w h last now).2 =
      if thumbAngleOf lm < THUMB_BENT_ANGLE ∧ now - last > SHOOT_COOLDOWN then now
      else last := by
  simp only [detect]
  rw [if_neg h21]
  simp only [decide_eq_true_eq]

/-- A concrete frame whose thumb is bent at a right angle (landmarks 2, 3, 4
span two orthogonal unit vectors); all other landmarks are at the origin. -/
def lmBent : List HandLandmark :=
  [lmDefault, lmDefault, ⟨0, 0, 0⟩, ⟨1, 0, 0⟩, ⟨1, 1, 0⟩] ++ List.replicate 16 lmDefault

theorem lmBent_length : ¬ lmBent.length < 21 := by
  simp [lmBent]

theorem thumbAngleOf_lmBent : thumbAngleOf lmBent = 90 := by
  have hgd : thumbAngleOf lmBent = angleAtJoint ⟨0, 0, 0⟩ ⟨1, 0, 0⟩ ⟨1, 1, 0⟩ := by
    simp [thumbAngleOf, lmBent, List.getD]
  rw [hgd]
  unfold angleAtJoint
  norm_num [Real.sqrt_one, Real.arccos_zero]
  field_simp
  ring

/-- C1 (amended): on a valid 21-landmark frame, the trigger fires iff the
thumb-bend angle is below 155° and *strictly more* than 500 ms have elapsed
since the previous fire; on fire the last-fire timestamp becomes the current
time; two bent-thumb frames less than 500 ms apart fire at most once; and a
thumb angle of exactly 155° or exactly 180° never fires. -/
theorem C1_trigger_cooldown :
    (∀ (lm : List HandLandmark) (w h last now : ℝ), ¬ lm.length < 21 →
      thumbAngleOf lm < THUMB_BENT_ANGLE →
      ((detect (some lm) w h last now).1.triggered = true ↔ now - last > SHOOT_COOLDOWN)) ∧
    (∀ (lm : List HandLandmark) (w h last now : ℝ), ¬ lm.length < 21 →
      (detect (some lm) w h last now).1.triggered = true →
      (detect (some lm) w h last now).2 = now) ∧
    (∀ (lm1 lm2 : List HandLandmark) (w h last t1 t2 : ℝ),
      ¬ lm1.length < 21 → ¬ lm2.length < 21 → t2 - t1 < SHOOT_COOLDOWN →
      ¬((detect (some lm1) w h last t1).1.triggered = true ∧
        (detect (some lm2) w h (detect (some lm1) w h last t1).2 t2).1.triggered = true)) ∧
    (∀ (lm : List HandLandmark) (w h last now : ℝ),
      thumbAngleOf lm = 155 ∨ thumbAngleOf lm = 180 →
      (detect (some lm) w h last now).1.triggered = false) := by
  have htrig : ∀ (lm : List HandLandmark) (w h last now : ℝ), ¬ lm.length < 21 →
      ((detect (some lm) w h last now).1.triggered = true ↔
        (thumbAngleOf lm < THUMB_BENT_ANGLE ∧ now - last > SHOOT_COOLDOWN)) := by
    intro lm w h last now h21
    rw [detect_triggered_eq lm w h last now h21]
    exact decide_eq_true_iff
  have hlastOnFire : ∀ (lm : List HandLandmark) (w h last now : ℝ), ¬ lm.length < 21 →
      (detect (some lm) w h last now).1.triggered = true →
      (detect (some lm) w h last now).2 = now := by
    intro lm w h last now h21 hfire
    rw [detect_newLast_eq lm w h last now h21]
    exact if_pos ((htrig lm w h last now h21).mp hfire)
  refine ⟨?_, hlastOnFire, ?_, ?_⟩
  · intro lm w h last now h21 hangle
    rw [htrig lm w h last now h21]
    constructor
    · exact fun hp => hp.2
    · exact fun hc => ⟨hangle, hc⟩
  · rintro lm1 lm2 w h last t1 t2 h21a h21b hclose ⟨hf1, hf2⟩
    have hl : (detect (some lm1) w h last t1).2 = t1 := hlastOnFire lm1 w h last t1 h21a hf1
    rw [hl] at hf2
    have := ((htrig lm2 w h t1 t2 h21b).mp hf2).2
    linarith
  · intro lm w h last now hangle
    by_cases h21 : lm.length < 21
    · simp [detect, h21, noGesture]
    · rw [detect_triggered_eq lm w h last now h21]
      rcases hangle with ha | ha <;>
        · rw [decide_eq_false_iff_not]
          rintro ⟨hlt, -⟩
          rw [ha] at hlt
          norm_num [THUMB_BENT_ANGLE] at hlt

/-- Witness for the amended C1 at the bent-thumb frame with 1000 ms elapsed. -/
theorem C1_trigger_cooldown_witness :
    (detect (some lmBent) 640 480 0 1000).1.triggered = true ∧
    (detect (some lmBent) 640 480 0 1000).2 = 1000 := by
  have hang : thumbAngleOf lmBent < THUMB_BENT_ANGLE := by
    rw [thumbAngleOf_lmBent]
    norm_num [THUMB_BENT_ANGLE]
  have hfire : (detect (some lmBent) 640 480 0 1000).1.triggered = true :=
    (C1_trigger_cooldown.1 lmBent 640 480 0 1000 lmBent_length hang).mpr
      (by norm_num [SHOOT_COOLDOWN])
  exact ⟨hfire, C1_trigger_cooldown.2.1 lmBent 640 480 0 1000 lmBent_length hfire⟩

/-- Counterexample to C1 as stated: at the bent-thumb frame (angle 90° < 155°)
with exactly 500 ms elapsed since the last fire, "at least 500 ms" holds, yet
the code (strict `>` comparison) does not fire. -/
theorem C1_counterexample :
    thumbAngleOf lmBent < THUMB_BENT_ANGLE ∧ ((500 : ℝ) - 0 ≥ SHOOT_COOLDOWN) ∧
    (detect (some lmBent) 640 480 0 500).1.triggered = false := by
  refine ⟨?_, ?_, ?_⟩
  · rw [thumbAngleOf_lmBent]
    norm_num [THUMB_BENT_ANGLE]
  · norm_num [SHOOT_COOLDOWN]
  · rw [detect_triggered_eq lmBent 640 480 0 500 lmBent_length,
      decide_eq_false_iff_not]
    rintro ⟨-, hgap⟩
    norm_num [SHOOT_COOLDOWN] at hgap

/-! ## Helper lemmas: DiscManager population -/

theorem spawnTrophy_trophies (w h : ℝ) (s : DiscState) :
    ∃ t : Trophy, (spawnTrophy w h s).trophies = s.trophies ++ [t] ∧ t.alive = true :=
  ⟨_, rfl, rfl⟩

theorem spawnTrophy_elapsedTime (w h : ℝ) (s : DiscState) :
    (spawnTrophy w h s).elapsedTime = s.elapsedTime := rfl

theorem spawnTrophy_length (w h : ℝ) (s : DiscState) :
    (spawnTrophy w h s).trophies.length = s.trophies.length + 1 := by
  obtain ⟨t, ht, -⟩ := spawnTrophy_trophies w h s
  simp [ht]

theorem spawnTrophy_aliveCount (w h : ℝ) (s : DiscState) :
    aliveCount (spawnTrophy w h s) = aliveCount s + 1 := by
  obtain ⟨t, ht, halive⟩ := spawnTrophy_trophies w h s
  simp [aliveCount, ht, List.filter_append, halive]

theorem spawnTrophy_allAlive (w h : ℝ) (s : DiscState)
    (hall : ∀ t ∈ s.trophies, t.alive = true) :
    ∀ t ∈ (spawnTrophy w h s).trophies, t.alive = true := by
  obtain ⟨u, hu, halive⟩ := spawnTrophy_trophies w h s
  intro t ht
  rw [hu] at ht
  rcases List.mem_append.mp ht with hmem | hmem
  · exact hall t hmem
  · rw [List.mem_singleton.mp hmem]
    exact halive

theorem spawnN_aliveCount (w h : ℝ) (n : ℕ) (s : DiscState) :
    aliveCount (spawnN w h n s) = aliveCount s + n := by
  induction n generalizing s with
  | zero => rfl
  | succ k ih =>
    show aliveCount (spawnN w h k (spawnTrophy w h s)) = aliveCount s + (k + 1)
    rw [ih, spawnTrophy_aliveCount]
    omega

theorem spawnN_length (w h : ℝ) (n : ℕ) (s : DiscState) :
    (spawnN w h n s).trophies.length = s.trophies.length + n := by
  induction n generalizing s with
  | zero => rfl
  | succ k ih =>
    show (spawnN w h k (spawnTrophy w h s)).trophies.length = s.trophies.length + (k + 1)
    rw [ih, spawnTrophy_length]
    omega

theorem spawnN_elapsedTime (w h : ℝ) (n : ℕ) (s : DiscState) :
    (spawnN w h n s).elapsedTime = s.elapsedTime := by
  induction n generalizing s with
  | zero => rfl
  | succ k ih =>
    show (spawnN w h k (spawnTrophy w h s)).elapsedTime = s.elapsedTime
    rw [ih, spawnTrophy_elapsedTime]

theorem spawnN_allAlive (w h : ℝ) (n : ℕ) (s : DiscState)
    (hall : ∀ t ∈ s.trophies, t.alive = true) :
    ∀ t ∈ (spawnN w h n s).trophies, t.alive = true := by
  induction n generalizing s with
  | zero => exact hall
  | succ k ih =>
    exact ih (spawnTrophy w h s) (spawnTrophy_allAlive w h s hall)

theorem aliveCount_eq_length (s : DiscState) (hall : ∀ t ∈ s.trophies, t.alive = true) :
    aliveCount s = s.trophies.length := by
  unfold aliveCount
  rw [List.filter_eq_self.mpr hall]

theorem length_filter_map_le {α : Type} (f : α → α) (p : α → Bool) (l : List α)
    (hf : ∀ x, p (f x) = true → p x = true) :
    ((l.map f).filter p).length ≤ (l.filter p).length := by
  induction l with
  | nil => simp
  | cons x xs ih =>
    simp only [List.map_cons, List.filter_cons]
    by_cases hx : p (f x) = true
    · rw [hx, hf x hx]
      simpa using ih
    · rw [Bool.not_eq_true] at hx
      rw [hx]
      by_cases hx2 : p x = true
      · rw [hx2]
        simp only [List.length_cons]
        exact Nat.le_succ_of_le ih
      · rw [Bool.not_eq_true] at hx2
        rw [hx2]
        exact ih

theorem moveTrophy_alive (dt w h : ℝ) (t : Trophy) :
    (moveTrophy dt w h t).alive = true → t.alive = true := by
  intro hmt
  cases htb : t.alive with
  | true => rfl
  | false =>
    exfalso
    unfold moveTrophy at hmt
    rw [htb] at hmt
    simp at hmt
    rw [htb] at hmt
    exact Bool.false_ne_true hmt

theorem replenish_length (w h : ℝ) (n : ℕ) (s : DiscState)
    (hfuel : TARGET_COUNT ≤ s.trophies.length + n) :
    (replenish w h n s).trophies.length = max s.trophies.length TARGET_COUNT := by
  induction n generalizing s with
  | zero =>
    have : TARGET_COUNT ≤ s.trophies.length := by omega
    show s.trophies.length = _
    omega
  | succ k ih =>
    show (if s.trophies.length < TARGET_COUNT
        then replenish w h k (spawnTrophy w h s) else s).trophies.length = _
    by_cases hlt : s.trophies.length < TARGET_COUNT
    · rw [if_pos hlt, ih (spawnTrophy w h s) (by rw [spawnTrophy_length]; omega),
        spawnTrophy_length]
      omega
    · rw [if_neg hlt]
      omega

theorem replenish_allAlive (w h : ℝ) (n : ℕ) (s : DiscState)
    (hall : ∀ t ∈ s.trophies, t.alive = true) :
    ∀ t ∈ (replenish w h n s).trophies, t.alive = true := by
  induction n generalizing s with
  | zero => exact hall
  | succ k ih =>
    show ∀ t ∈ (if s.trophies.length < TARGET_COUNT
        then replenish w h k (spawnTrophy w h s) else s).trophies, t.alive = true
    by_cases hlt : s.trophies.length < TARGET_COUNT
    · rw [if_pos hlt]
      exact ih (spawnTrophy w h s) (spawnTrophy_allAlive w h s hall)
    · rw [if_neg hlt]
      exact hall

theorem update_aliveCount (dt w h : ℝ) (s : DiscState)
    (hle : aliveCount s ≤ TARGET_COUNT) :
    aliveCount (s.update dt w h) = TARGET_COUNT := by
  unfold DiscState.update
  simp only []
  set moved := (s.trophies.map (moveTrophy dt w h)).filter (·.alive) with hmoved
  have hallm : ∀ t ∈ moved, t.alive = true := by
    intro t ht
    exact (List.mem_filter.mp ht).2
  have hlen : moved.length ≤ TARGET_COUNT := by
    calc moved.length ≤ (s.trophies.filter (·.alive)).length :=
          length_filter_map_le (moveTrophy dt w h) (·.alive) s.trophies
            (moveTrophy_alive dt w h)
      _ ≤ TARGET_COUNT := hle
  set s2 : DiscState :=
    { s with
      elapsedTime := s.elapsedTime + dt,
      trophies := moved,
      fragments := ((s.fragments.map (stepFragment dt)).filter fun f => !decide (f.life ≤ 0)) }
    with hs2
  have h2 : (replenish w h TARGET_COUNT s2).trophies.length = TARGET_COUNT := by
    rw [replenish_length w h TARGET_COUNT s2 (by omega)]
    have : s2.trophies.length = moved.length := rfl
    omega
  have h3 : ∀ t ∈ (replenish w h TARGET_COUNT s2).trophies, t.alive = true :=
    replenish_allAlive w h TARGET_COUNT s2 hallm
  rw [aliveCount_eq_length _ h3] at *
  exact h2

theorem spawnFragment_trophies (cx cy : ℝ) (c i : ℕ) (s : DiscState) :
    (spawnFragment cx cy c i s).trophies = s.trophies := rfl

theorem spawnFragments_trophies (cx cy : ℝ) (c n : ℕ) (s : DiscState) :
    (spawnFragments cx cy c n s).trophies = s.trophies := by
  induction n generalizing s with
  | zero => rfl
  | succ k ih =>
    show (spawnFragments cx cy c k (spawnFragment cx cy c (c - (k + 1)) s)).trophies = _
    rw [ih, spawnFragment_trophies]

theorem killIfId_alive (t u : Trophy) :
    (if u.id = t.id then { u with alive := false } else u).alive = true →
    u.alive = true := by
  by_cases hid : u.id = t.id
  · rw [if_pos hid]
    intro hcon
    exact absurd hcon (by simp)
  · rw [if_neg hid]
    exact id

theorem shatterTrophy_aliveCount_le (t : Trophy) (s : DiscState) :
    aliveCount (shatterTrophy t s) ≤ aliveCount s := by
  unfold shatterTrophy
  simp only []
  unfold aliveCount
  rw [spawnFragments_trophies]
  exact length_filter_map_le
    (fun u => if u.id = t.id then { u with alive := false } else u)
    (·.alive) s.trophies (fun u hu => killIfId_alive t u hu)

theorem checkHit_aliveCount_le (qx qy : ℝ) (s : DiscState) :
    aliveCount (s.checkHit qx qy).2 ≤ aliveCount s := by
  unfold DiscState.checkHit
  rcases hscan : closestScan qx qy s.trophies (none, ⊤) with ⟨copt, d⟩
  cases copt with
  | some t =>
    simp only []
    exact shatterTrophy_aliveCount_le t s
  | none =>
    simp only []
    exact le_refl _

theorem runDMOps_aliveCount (w h : ℝ) (ops : List DMOp) (s : DiscState)
    (hle : aliveCount s ≤ TARGET_COUNT) :
    aliveCount (runDMOps w h ops s) ≤ TARGET_COUNT := by
  induction ops generalizing s with
  | nil => exact hle
  | cons op rest ih =>
    cases op with
    | upd dt =>
      exact ih _ (le_of_eq (update_aliveCount dt w h s hle))
    | hit x y =>
      exact ih _ (le_trans (checkHit_aliveCount_le x y s) hle)

/-- C4: after a single `start()` on a fresh field and any sequence of
`update`/`checkHit` calls, the live target count never exceeds the fixed
population size 4, and every `update` tick ends with the count restored to
exactly 4. -/
theorem C4_population (w h : ℝ) (ops : List DMOp) (s0 : DiscState)
    (h0 : s0.trophies = []) :
    aliveCount (runDMOps w h ops (s0.start w h)) ≤ TARGET_COUNT ∧
    ∀ dt : ℝ, aliveCount ((runDMOps w h ops (s0.start w h)).update dt w h) = TARGET_COUNT := by
  have hstart : aliveCount (s0.start w h) = TARGET_COUNT := by
    unfold DiscState.start
    rw [spawnN_aliveCount]
    unfold aliveCount
    rw [h0]
    rfl
  have hrun : aliveCount (runDMOps w h ops (s0.start w h)) ≤ TARGET_COUNT :=
    runDMOps_aliveCount w h ops _ (le_of_eq hstart)
  exact ⟨hrun, fun dt => update_aliveCount dt w h _ hrun⟩

/-- Witness for C4 on a fresh field with one update tick. -/
theorem C4_population_witness :
    aliveCount (runDMOps 640 480 [] (discEx.start 640 480)) ≤ TARGET_COUNT ∧
    aliveCount ((runDMOps 640 480 [] (discEx.start 640 480)).update 1 640 480) =
      TARGET_COUNT :=
  ⟨(C4_population 640 480 [] discEx rfl).1, (C4_population 640 480 [] discEx rfl).2 1⟩

/-- A concrete live trophy. -/
noncomputable def trophyEx : Trophy := ⟨0, 0, 0, true, 0, 0, 90, .bronze⟩

/-- A target field mid-round: four live trophies and 30 s of elapsed time. -/
noncomputable def sFour : DiscState :=
  ⟨[trophyEx, trophyEx, trophyEx, trophyEx], 4, [], 30, fun _ => 0, 0⟩

/-- Counterexample to C5 as stated: `start()` on a field that already holds 4
live targets yields 8, not 4; and even after the host's `dispose()`+`start()`
restart sequence the elapsed-time accumulator keeps its old value, so the
difficulty speed bonus resumes at 15, not 0. -/
theorem C5_counterexample :
    aliveCount (sFour.start 640 480) = 8 ∧
    (sFour.dispose.start 640 480).elapsedTime = 30 ∧
    getSpeedBonus (sFour.dispose.start 640 480) = 15 := by
  have hcount : aliveCount sFour = 4 := rfl
  refine ⟨?_, ?_, ?_⟩
  · unfold DiscState.start
    rw [spawnN_aliveCount, hcount]
    rfl
  · unfold DiscState.start
    rw [spawnN_elapsedTime]
    rfl
  · unfold getSpeedBonus DiscState.start
    rw [spawnN_elapsedTime]
    have he : sFour.dispose.elapsedTime = 30 := rfl
    rw [he]
    norm_num [SPEED_RAMP_INTERVAL, SPEED_RAMP_AMOUNT, SPEED_RAMP_MAX]

/-- C5 (amended): `start()` does not clear anything — it spawns `TARGET_COUNT`
additional targets on top of whatever is present and leaves the elapsed-time
accumulator (hence the difficulty speed bonus) untouched; `dispose()` clears
the target and fragment arrays but also keeps the elapsed-time accumulator, so
only the target/fragment state is reset by a `dispose()`+`start()` restart,
after which the live count is exactly 4. -/
theorem C5_start_dispose (w h : ℝ) (s : DiscState) :
    s.dispose.trophies = [] ∧
    s.dispose.fragments = [] ∧
    s.dispose.elapsedTime = s.elapsedTime ∧
    (s.start w h).trophies.length = s.trophies.length + TARGET_COUNT ∧
    aliveCount (s.start w h) = aliveCount s + TARGET_COUNT ∧
    (s.start w h).elapsedTime = s.elapsedTime ∧
    aliveCount (s.dispose.start w h) = TARGET_COUNT := by
  refine ⟨rfl, rfl, rfl, ?_, ?_, ?_, ?_⟩
  · unfold DiscState.start
    rw [spawnN_length]
  · unfold DiscState.start
    rw [spawnN_aliveCount]
  · unfold DiscState.start
    rw [spawnN_elapsedTime]
  · unfold DiscState.start
    rw [spawnN_aliveCount]
    rfl

/-! ## Helper lemmas: checkHit scan -/

theorem closestScan_spec (qx qy : ℝ) (L : List Trophy) (c : Option Trophy) (d : EReal)
    (hinv : (c = none ∧ d = ⊤) ∨
      (∃ t0, c = some t0 ∧ d = (distTo qx qy t0 : EReal) ∧ t0.alive = true ∧
        distTo qx qy t0 < t0.radius)) :
    (∀ d', closestScan qx qy L (c, d) = (none, d') →
      c = none ∧ ∀ u ∈ L, u.alive = true → ¬(distTo qx qy u < u.radius)) ∧
    (∀ t d', closestScan qx qy L (c, d) = (some t, d') →
      d' = (distTo qx qy t : EReal) ∧ t.alive = true ∧ distTo qx qy t < t.radius ∧
      (t ∈ L ∨ c = some t) ∧
      (∀ u ∈ L, u.alive = true → distTo qx qy u < u.radius →
        distTo qx qy t ≤ distTo qx qy u) ∧
      (distTo qx qy t : EReal) ≤ d) := by
  induction L generalizing c d with
  | nil =>
    constructor
    · intro d' hres
      rw [closestScan] at hres
      refine ⟨congrArg Prod.fst hres, ?_⟩
      intro u hu
      exact absurd hu (List.not_mem_nil u)
    · intro t d' hres
      rw [closestScan] at hres
      have hc : c = some t := congrArg Prod.fst hres
      have hd : d = d' := congrArg Prod.snd hres
      rcases hinv with ⟨hcn, -⟩ | ⟨t0, hct, hdt, halive, hrad⟩
      · rw [hcn] at hc
        cases hc
      · rw [hct] at hc
        injection hc with ht0
        subst ht0
        refine ⟨by rw [← hd, hdt], halive, hrad, Or.inr hct, ?_, by rw [hdt]⟩
        intro u hu
        exact absurd hu (List.not_mem_nil u)
  | cons u us ih =>
    by_cases hcond : u.alive = true ∧ distTo qx qy u < u.radius ∧
        (distTo qx qy u : EReal) < d
    · have hstep : closestScan qx qy (u :: us) (c, d) =
          closestScan qx qy us (some u, (distTo qx qy u : EReal)) := by
        rw [closestScan, if_pos hcond]
      have ihs := ih (some u) ((distTo qx qy u : EReal))
        (Or.inr ⟨u, rfl, rfl, hcond.1, hcond.2.1⟩)
      constructor
      · intro d' hres
        rw [hstep] at hres
        obtain ⟨heq, -⟩ := ihs.1 d' hres
        cases heq
      · intro t d' hres
        rw [hstep] at hres
        obtain ⟨hd', halive, hrad, hmem, hmin, hled⟩ := ihs.2 t d' hres
        have htu : distTo qx qy t ≤ distTo qx qy u := EReal.coe_le_coe_iff.mp hled
        refine ⟨hd', halive, hrad, ?_, ?_, ?_⟩
        · rcases hmem with hm | hm
          · exact Or.inl (List.mem_cons_of_mem u hm)
          · injection hm with hm
            exact Or.inl (hm ▸ List.mem_cons_self u us)
        · intro v hv hva hvr
          rcases List.mem_cons.mp hv with rfl | hvm
          · exact htu
          · exact hmin v hvm hva hvr
        · exact le_trans hled (le_of_lt hcond.2.2)
    · have hstep : closestScan qx qy (u :: us) (c, d) = closestScan qx qy us (c, d) := by
        rw [closestScan, if_neg hcond]
      have ihs := ih c d hinv
      constructor
      · intro d' hres
        rw [hstep] at hres
        obtain ⟨hcn, hnone⟩ := ihs.1 d' hres
        refine ⟨hcn, ?_⟩
        intro v hv hva
        rcases List.mem_cons.mp hv with rfl | hvm
        · intro hvr
          rcases hinv with ⟨-, hdt⟩ | ⟨t0, hct, -, -, -⟩
          · exact hcond ⟨hva, hvr, hdt ▸ EReal.coe_lt_top _⟩
          · rw [hcn] at hct
            cases hct
        · exact hnone v hvm hva
      · intro t d' hres
        rw [hstep] at hres
        obtain ⟨hd', halive, hrad, hmem, hmin, hled⟩ := ihs.2 t d' hres
        refine ⟨hd', halive, hrad, ?_, ?_, hled⟩
        · rcases hmem with hm | hm
          · exact Or.inl (List.mem_cons_of_mem u hm)
          · exact Or.inr hm
        · intro v hv hva hvr
          rcases List.mem_cons.mp hv with rfl | hvm
          · have hdv : ¬((distTo qx qy v : EReal) < d) := fun hlt => hcond ⟨hva, hvr, hlt⟩
            have : d ≤ (distTo qx qy v : EReal) := not_lt.mp hdv
            exact EReal.coe_le_coe_iff.mp (le_trans hled this)
          · exact hmin v hvm hva hvr

/-- C3: `checkHit` returns the geometrically closest live target among those
whose distance from the query point is within their own tier hit radius,
reporting that target's pre-shatter position and tier; when no live target is
within its radius it returns the no-hit sentinel `none` (the function is
total, so no exception can be raised). -/
theorem C3_checkHit (qx qy : ℝ) (s : DiscState) :
    ((s.checkHit qx qy).1 = none →
      ∀ u ∈ s.trophies, u.alive = true → ¬(distTo qx qy u < u.radius)) ∧
    (∀ x y tier, (s.checkHit qx qy).1 = some (x, y, tier) →
      ∃ t ∈ s.trophies, t.alive = true ∧ distTo qx qy t < t.radius ∧
        x = t.screenX ∧ y = t.screenY ∧ tier = t.tier ∧
        ∀ u ∈ s.trophies, u.alive = true → distTo qx qy u < u.radius →
          distTo qx qy t ≤ distTo qx qy u) := by
  have hspec := closestScan_spec qx qy s.trophies none ⊤ (Or.inl ⟨rfl, rfl⟩)
  constructor
  · intro hnone u hu hua
    unfold DiscState.checkHit at hnone
    rcases hscan : closestScan qx qy s.trophies (none, ⊤) with ⟨copt, d⟩
    cases copt with
    | some t =>
      rw [hscan] at hnone
      simp only [] at hnone
      cases hnone
    | none =>
      exact (hspec.1 d hscan).2 u hu hua
  · intro x y tier hsome
    unfold DiscState.checkHit at hsome
    rcases hscan : closestScan qx qy s.trophies (none, ⊤) with ⟨copt, d⟩
    cases copt with
    | some t =>
      rw [hscan] at hsome
      simp only [] at hsome
      obtain ⟨-, halive, hrad, hmem, hmin, -⟩ := hspec.2 t d hscan
      have hmemL : t ∈ s.trophies := by
        rcases hmem with hm | hm
        · exact hm
        · cases hm
      injection hsome with hsome
      injection hsome with hx hyt
      injection hyt with hy ht
      exact ⟨t, hmemL, halive, hrad, hx.symm ▸ rfl, hy.symm ▸ rfl, ht.symm ▸ rfl, hmin⟩
    | none =>
      rw [hscan] at hsome
      simp only [] at hsome
      cases hsome

/-- A live bronze trophy at (3,4) (distance 5 from the origin). -/
noncomputable def trophyHit : Trophy := ⟨0, 0, 0, true, 3, 4, 90, .bronze⟩

/-- A target field holding just `trophyHit`. -/
noncomputable def sHit : DiscState := ⟨[trophyHit], 1, [], 0, fun _ => 0, 0⟩

theorem distTo_trophyHit : distTo 0 0 trophyHit = 5 := by
  have h1 : distTo 0 0 trophyHit = Real.sqrt 25 := by
    unfold distTo trophyHit
    norm_num
  rw [h1, show (25 : ℝ) = 5 ^ 2 by norm_num, Real.sqrt_sq (by norm_num : (0 : ℝ) ≤ 5)]

theorem sHit_checkHit : (sHit.checkHit 0 0).1 = some (3, 4, TrophyTier.bronze) := by
  have hrad : distTo 0 0 trophyHit < trophyHit.radius := by
    rw [distTo_trophyHit]
    show (5 : ℝ) < 90
    norm_num
  have hscan : closestScan 0 0 [trophyHit] (none, ⊤) =
      (some trophyHit, (distTo 0 0 trophyHit : EReal)) := by
    rw [closestScan, if_pos ⟨rfl, hrad, EReal.coe_lt_top _⟩, closestScan]
  unfold DiscState.checkHit
  rw [show sHit.trophies = [trophyHit] from rfl, hscan]
  rfl

/-- Witness for C3: on a field with one live trophy at (3,4) of radius 90, a
shot at the origin (distance 5) hits it and reports its position and tier; on
an empty field the same shot reports no hit. -/
theorem C3_checkHit_witness :
    (∃ t ∈ sHit.trophies, t.alive = true ∧ distTo 0 0 t < t.radius ∧
      (3 : ℝ) = t.screenX ∧ (4 : ℝ) = t.screenY ∧ TrophyTier.bronze = t.tier ∧
      ∀ u ∈ sHit.trophies, u.alive = true → distTo 0 0 u < u.radius →
        distTo 0 0 t ≤ distTo 0 0 u) ∧
    (∀ u ∈ discEx.trophies, u.alive = true → ¬(distTo 0 0 u < u.radius)) :=
  ⟨(C3_checkHit 0 0 sHit).2 3 4 .bronze sHit_checkHit,
   (C3_checkHit 0 0 discEx).1 rfl⟩

/-! ## Helper lemmas: aim assist scan -/

theorem aimDist_nonneg (p d : ScreenPosition) : 0 ≤ aimDist p d := Real.sqrt_nonneg _

theorem aimDist_eq_zero (p d : ScreenPosition) (h : aimDist p d = 0) :
    d.x = p.x ∧ d.y = p.y := by
  unfold aimDist at h
  have hle := Real.sqrt_eq_zero'.mp h
  have h1 : 0 ≤ (p.x - d.x) * (p.x - d.x) := mul_self_nonneg _
  have h2 : 0 ≤ (p.y - d.y) * (p.y - d.y) := mul_self_nonneg _
  have hx : (p.x - d.x) * (p.x - d.x) = 0 := by linarith
  have hy : (p.y - d.y) * (p.y - d.y) = 0 := by linarith
  have hx0 := mul_self_eq_zero.mp hx
  have hy0 := mul_self_eq_zero.mp hy
  constructor <;> linarith

/-- Invariant of the assist scan: either no disc has qualified yet, or the
running distance is a nonnegative real, and if that distance is 0 the aim has
been pulled exactly onto the raw aim point and the lock flag is set. -/
def AimInv (p : ScreenPosition) (acc : AimAcc) : Prop :=
  acc.closestDist = ⊤ ∨ ∃ r : ℝ, 0 ≤ r ∧ acc.closestDist = (r : EReal) ∧
    (r = 0 → acc.aimX = p.x ∧ acc.aimY = p.y ∧ acc.isLocked = true)

theorem aimFired_inv (p d : ScreenPosition) :
    AimInv p
      ⟨p.x + (d.x - p.x) * (AIM_ASSIST_STRENGTH * (1 - aimDist p d / AIM_ASSIST_RADIUS)),
       p.y + (d.y - p.y) * (AIM_ASSIST_STRENGTH * (1 - aimDist p d / AIM_ASSIST_RADIUS)),
       decide (aimDist p d < AIM_ASSIST_RADIUS * 0.5), (aimDist p d : EReal)⟩ := by
  right
  refine ⟨aimDist p d, aimDist_nonneg p d, rfl, ?_⟩
  intro h0
  obtain ⟨hx, hy⟩ := aimDist_eq_zero p d h0
  refine ⟨?_, ?_, ?_⟩
  · show p.x + (d.x - p.x) * _ = p.x
    rw [hx]
    ring
  · show p.y + (d.y - p.y) * _ = p.y
    rw [hy]
    ring
  · show decide (aimDist p d < AIM_ASSIST_RADIUS * 0.5) = true
    rw [h0, decide_eq_true_eq]
    norm_num [AIM_ASSIST_RADIUS]

theorem aimScan_inv (p : ScreenPosition) (L : List ScreenPosition) (acc : AimAcc)
    (hinv : AimInv p acc) : AimInv p (aimScan p L acc) := by
  induction L generalizing acc with
  | nil => exact hinv
  | cons d ds ih =>
    simp only [aimScan]
    by_cases hc : aimDist p d < AIM_ASSIST_RADIUS ∧ (aimDist p d : EReal) < acc.closestDist
    · rw [if_pos hc]
      exact ih _ (aimFired_inv p d)
    · rw [if_neg hc]
      exact ih acc hinv

theorem aimScan_closest_zero (p : ScreenPosition) (L : List ScreenPosition) :
    ∀ acc : AimAcc, AimInv p acc →
      ((∃ d ∈ L, aimDist p d = 0) ∨ acc.closestDist = ((0 : ℝ) : EReal)) →
      (aimScan p L acc).closestDist = ((0 : ℝ) : EReal) := by
  induction L with
  | nil =>
    intro acc _ hcase
    rcases hcase with ⟨d, hd, -⟩ | hz
    · exact absurd hd (List.not_mem_nil d)
    · exact hz
  | cons u us ih =>
    intro acc hinv hcase
    simp only [aimScan]
    by_cases hc : aimDist p u < AIM_ASSIST_RADIUS ∧ (aimDist p u : EReal) < acc.closestDist
    · rw [if_pos hc]
      rcases hcase with ⟨d, hd, hd0⟩ | hz
      · rcases List.mem_cons.mp hd with rfl | hdus
        · refine ih _ (aimFired_inv p d) (Or.inr ?_)
          show (aimDist p d : EReal) = ((0 : ℝ) : EReal)
          rw [hd0]
        · exact ih _ (aimFired_inv p u) (Or.inl ⟨d, hdus, hd0⟩)
      · exfalso
        rw [hz] at hc
        have := EReal.coe_lt_coe_iff.mp hc.2
        linarith [aimDist_nonneg p u]
    · rw [if_neg hc]
      refine ih acc hinv ?_
      rcases hcase with ⟨d, hd, hd0⟩ | hz
      · rcases List.mem_cons.mp hd with rfl | hdus
        · right
          have hnotlt : ¬((aimDist p d : EReal) < acc.closestDist) := by
            intro hlt
            exact hc ⟨by rw [hd0]; norm_num [AIM_ASSIST_RADIUS], hlt⟩
          rcases hinv with htop | ⟨r, hr0, hrc, -⟩
          · exfalso
            rw [htop, hd0] at hnotlt
            exact hnotlt (EReal.coe_lt_top 0)
          · rw [hrc, hd0] at hnotlt
            have hr : r ≤ 0 := EReal.coe_le_coe_iff.mp (not_lt.mp hnotlt)
            rw [hrc, show r = 0 by linarith]
        · exact Or.inl ⟨d, hdus, hd0⟩
      · exact Or.inr hz

theorem aimScan_of_far (p : ScreenPosition) (L : List ScreenPosition) (acc : AimAcc)
    (hfar : ∀ d ∈ L, ¬ aimDist p d < AIM_ASSIST_RADIUS) :
    aimScan p L acc = acc := by
  induction L generalizing acc with
  | nil => rfl
  | cons d ds ih =>
    simp only [aimScan]
    rw [if_neg (fun hcon => hfar d (List.mem_cons_self d ds) hcon.1)]
    exact ih acc (fun u hu => hfar u (List.mem_cons_of_mem d hu))

theorem aimScan_onTarget (p : ScreenPosition) (L : List ScreenPosition)
    (hex : ∃ d ∈ L, aimDist p d = 0) :
    (aimScan p L ⟨p.x, p.y, false, ⊤⟩).aimX = p.x ∧
    (aimScan p L ⟨p.x, p.y, false, ⊤⟩).aimY = p.y ∧
    (aimScan p L ⟨p.x, p.y, false, ⊤⟩).isLocked = true := by
  have hinv0 : AimInv p ⟨p.x, p.y, false, ⊤⟩ := Or.inl rfl
  have hz := aimScan_closest_zero p L _ hinv0 (Or.inl hex)
  rcases aimScan_inv p L _ hinv0 with htop | ⟨r, hr0, hrc, himp⟩
  · exact absurd (htop.symm.trans hz).symm (EReal.coe_ne_top 0)
  · rw [hrc] at hz
    exact himp (EReal.coe_eq_coe_iff.mp hz)

/-- C9: a raw aim point exactly on a target position comes back unchanged
(equal to that target position) with the lock flag set; a raw aim point at
distance ≥ 150 px from every target is returned unchanged with the lock flag
clear; and for a single qualifying target the returned point is the raw aim
linearly pulled toward the target with strength 0.45·(1 − distance/150). -/
theorem C9_aim_assist :
    (∀ (p b : ScreenPosition) (L : List ScreenPosition) (prev : Bool),
      (∃ d ∈ L, d = p) →
      shootingUpdate (some p) (some b) L prev = (some p, true)) ∧
    (∀ (p b : ScreenPosition) (L : List ScreenPosition) (prev : Bool),
      (∀ d ∈ L, AIM_ASSIST_RADIUS ≤ aimDist p d) →
      shootingUpdate (some p) (some b) L prev = (some p, false)) ∧
    (∀ (p b d : ScreenPosition) (prev : Bool), aimDist p d < AIM_ASSIST_RADIUS →
      shootingUpdate (some p) (some b) [d] prev =
        (some ⟨p.x + (d.x - p.x) * (AIM_ASSIST_STRENGTH * (1 - aimDist p d / AIM_ASSIST_RADIUS)),
               p.y + (d.y - p.y) * (AIM_ASSIST_STRENGTH * (1 - aimDist p d / AIM_ASSIST_RADIUS))⟩,
         decide (aimDist p d < AIM_ASSIST_RADIUS * 0.5))) := by
  refine ⟨?_, ?_, ?_⟩
  · intro p b L prev hex
    have hex0 : ∃ d ∈ L, aimDist p d = 0 := by
      obtain ⟨d, hd, hdp⟩ := hex
      refine ⟨d, hd, ?_⟩
      rw [hdp]
      unfold aimDist
      simp
    obtain ⟨h1, h2, h3⟩ := aimScan_onTarget p L hex0
    unfold shootingUpdate
    simp only []
    rw [Prod.mk.injEq]
    constructor
    · rw [Option.some.injEq]
      show (⟨(aimScan p L ⟨p.x, p.y, false, ⊤⟩).aimX,
            (aimScan p L ⟨p.x, p.y, false, ⊤⟩).aimY⟩ : ScreenPosition) = p
      rw [h1, h2]
    · exact h3
  · intro p b L prev hfar
    have hres := aimScan_of_far p L ⟨p.x, p.y, false, ⊤⟩
      (fun d hd => not_lt.mpr (hfar d hd))
    unfold shootingUpdate
    simp only []
    rw [hres]
  · intro p b d prev hlt
    unfold shootingUpdate
    simp only [aimScan]
    rw [if_pos ⟨hlt, EReal.coe_lt_top _⟩]

/-- Witness for C9: on-target lock at (100,100); no assist at 200 px; pull
formula for a single disc 3 px away. -/
theorem C9_aim_assist_witness :
    shootingUpdate (some ⟨100, 100⟩) (some ⟨0, 0⟩) [⟨100, 100⟩] false =
      (some ⟨100, 100⟩, true) ∧
    shootingUpdate (some ⟨100, 100⟩) (some ⟨0, 0⟩) [⟨300, 100⟩] true =
      (some ⟨100, 100⟩, false) ∧
    shootingUpdate (some ⟨100, 100⟩) (some ⟨0, 0⟩) [⟨100, 103⟩] false =
      (some ⟨(100 : ℝ) + ((100 : ℝ) - 100) *
          (AIM_ASSIST_STRENGTH * (1 - aimDist ⟨100, 100⟩ ⟨100, 103⟩ / AIM_ASSIST_RADIUS)),
        (100 : ℝ) + ((103 : ℝ) - 100) *
          (AIM_ASSIST_STRENGTH * (1 - aimDist ⟨100, 100⟩ ⟨100, 103⟩ / AIM_ASSIST_RADIUS))⟩,
       decide (aimDist ⟨100, 100⟩ ⟨100, 103⟩ < AIM_ASSIST_RADIUS * 0.5)) := by
  have hd200 : aimDist ⟨100, 100⟩ ⟨300, 100⟩ = 200 := by
    have h1 : aimDist ⟨100, 100⟩ ⟨300, 100⟩ = Real.sqrt 40000 := by
      unfold aimDist
      norm_num
    rw [h1, show (40000 : ℝ) = 200 ^ 2 by norm_num,
      Real.sqrt_sq (by norm_num : (0 : ℝ) ≤ 200)]
  have hd3 : aimDist ⟨100, 100⟩ ⟨100, 103⟩ = 3 := by
    have h1 : aimDist ⟨100, 100⟩ ⟨100, 103⟩ = Real.sqrt 9 := by
      unfold aimDist
      norm_num
    rw [h1, show (9 : ℝ) = 3 ^ 2 by norm_num,
      Real.sqrt_sq (by norm_num : (0 : ℝ) ≤ 3)]
  refine ⟨?_, ?_, ?_⟩
  · exact C9_aim_assist.1 ⟨100, 100⟩ ⟨0, 0⟩ [⟨100, 100⟩] false
      ⟨⟨100, 100⟩, List.mem_singleton_self _, rfl⟩
  · refine C9_aim_assist.2.1 ⟨100, 100⟩ ⟨0, 0⟩ [⟨300, 100⟩] true ?_
    intro d hd
    rw [List.mem_singleton.mp hd, hd200]
    norm_num [AIM_ASSIST_RADIUS]
  · exact C9_aim_assist.2.2 ⟨100, 100⟩ ⟨0, 0⟩ ⟨100, 103⟩ false
      (by rw [hd3]; norm_num [AIM_ASSIST_RADIUS])

end ARShooter
